import Mathlib

/-!
Verification of the order-book core of the binance-orderbook repository.

The Rust source keeps two `BTreeMap<OrderedFloat<f64>, f64>` maps (bids and
asks) inside an `OrderBook` struct together with the tracked `symbol` and the
`last_update_id` counter (src/structs.rs).  The embedding below models:

* prices and quantities as rationals (`ℚ`): the source totally orders its
  float keys through the `OrderedFloat` wrapper and only ever compares them
  and tests `qty > 0.0`, operations which the ordered field `ℚ` reflects;
* the `BTreeMap` as an association list sorted strictly ascending by key,
  mirroring the map's iteration order (`iter().next()` = head,
  `iter().next_back()` = last); the lookup/insert/erase lemmas below are
  proved for arbitrary association lists and hence in particular for the
  sorted ones the operations maintain;
* `u64` update ids as `Nat` (the source only assigns and compares them);
* Rust `Result<T, OrderBookError>` as `Except OrderBookError T`;
* `str::parse::<f64>` as `parseDecimal : String → Option ℚ`, a decimal
  literal parser over `ℚ` (optional sign, integer part, optional fractional
  part, optional exponent); the non-finite literals (`inf`, `NaN`) that the
  wire format never produces fall outside the rational model.
-/

namespace BinanceOrderbook

/-- Association list from price to quantity, kept sorted strictly ascending
by price, modelling `BTreeMap<OrderedFloat<f64>, f64>`. -/
abbrev PriceMap := List (ℚ × ℚ)

/-- Lookup of a price key, modelling `BTreeMap::get`. -/
def PriceMap.lookup (m : PriceMap) (k : ℚ) : Option ℚ :=
  match m with
  | [] => none
  | e :: t => if e.1 = k then some e.2 else PriceMap.lookup t k

/-- Insert-or-overwrite of a price key, modelling `BTreeMap::insert`.  The
new binding is placed before the first key that is not smaller, which keeps a
sorted list sorted. -/
def PriceMap.insert (m : PriceMap) (k v : ℚ) : PriceMap :=
  match m with
  | [] => [(k, v)]
  | e :: t =>
    if k < e.1 then (k, v) :: e :: t
    else if k = e.1 then (k, v) :: t
    else e :: PriceMap.insert t k v

/-- Removal of a price key, modelling `BTreeMap::remove`. -/
def PriceMap.erase (m : PriceMap) (k : ℚ) : PriceMap :=
  match m with
  | [] => []
  | e :: t => if e.1 = k then PriceMap.erase t k else e :: PriceMap.erase t k

/-- The error type of src/error.rs restricted to the variants the order-book
core itself produces (the I/O, JSON, connection and channel variants wrap
external library types and never arise from the functions modelled here). -/
inductive OrderBookError where
  | DifferentSymbol (msg : String)
  | UpdateIdOutdated (msg : String)
  | ParseError (msg : String)
  | IncorrectJsonData
deriving DecidableEq, Repr

/-- `struct BookTickerUpdate` of src/structs.rs: a single best bid/ask. -/
structure BookTickerUpdate where
  last_update_id : Nat
  bid_price : ℚ
  bid_qty : ℚ
  ask_price : ℚ
  ask_qty : ℚ
deriving DecidableEq, Repr

/-- `struct DepthUpdate` of src/structs.rs: batched bid/ask levels. -/
structure DepthUpdate where
  last_update_id : Nat
  bids : List (ℚ × ℚ)
  asks : List (ℚ × ℚ)
deriving DecidableEq, Repr

/-- `struct OrderBook` of src/structs.rs. -/
structure OrderBook where
  symbol : String
  last_update_id : Nat
  bids : PriceMap
  asks : PriceMap
deriving DecidableEq, Repr

/-- `OrderBook::new`: empty book, `last_update_id = 0`. -/
def OrderBook.new (symbol : String) : OrderBook :=
  { symbol := symbol, last_update_id := 0, bids := [], asks := [] }

/-- `OrderBook::update_book_ticker`: set `last_update_id`, then upsert the
bid level when `bid_qty > 0.0` else remove it, then the same on the ask
side. -/
def OrderBook.update_book_ticker (b : OrderBook) (data : BookTickerUpdate) : OrderBook :=
  let b1 : OrderBook := { b with last_update_id := data.last_update_id }
  let b2 : OrderBook :=
    if data.bid_qty > 0 then { b1 with bids := b1.bids.insert data.bid_price data.bid_qty }
    else { b1 with bids := b1.bids.erase data.bid_price }
  if data.ask_qty > 0 then { b2 with asks := b2.asks.insert data.ask_price data.ask_qty }
  else { b2 with asks := b2.asks.erase data.ask_price }

/-- One iteration of the `for (price, qty)` loops in
`OrderBook::update_depth`: upsert when `qty > 0.0`, else remove. -/
def applyLevel (m : PriceMap) (e : ℚ × ℚ) : PriceMap :=
  if e.2 > 0 then m.insert e.1 e.2 else m.erase e.1

/-- `OrderBook::update_depth`: set `last_update_id`, then fold every bid
level into the bid map and every ask level into the ask map, in batch
order. -/
def OrderBook.update_depth (b : OrderBook) (data : DepthUpdate) : OrderBook :=
  { b with
    last_update_id := data.last_update_id
    bids := data.bids.foldl applyLevel b.bids
    asks := data.asks.foldl applyLevel b.asks }

/-- `OrderBook::get_best_bid_ask`: `iter().next_back()` on bids (the maximal
key of the sorted map) and `iter().next()` on asks (the minimal key);
`Some` only when both sides are non-empty. -/
def OrderBook.get_best_bid_ask (b : OrderBook) : Option ((ℚ × ℚ) × (ℚ × ℚ)) :=
  match b.bids.getLast?, b.asks.head? with
  | some bid, some ask => some (bid, ask)
  | _, _ => none

/-- `OrderBook::get_volume_at_price`: the bid quantity at `price` when
present, else the ask quantity, else `0.0`. -/
def OrderBook.get_volume_at_price (b : OrderBook) (price : ℚ) : ℚ :=
  match b.bids.lookup price with
  | some qty => qty
  | none =>
    match b.asks.lookup price with
    | some qty => qty
    | none => 0

/-- `OrderBook::is_symbol_same`: `Ok(())` exactly when the candidate symbol
equals the book's symbol, else `DifferentSymbol`. -/
def OrderBook.is_symbol_same (b : OrderBook) (symbol : String) : Except OrderBookError Unit :=
  if b.symbol = symbol then Except.ok ()
  else Except.error (OrderBookError.DifferentSymbol
    ("Symbol is different! expected: " ++ b.symbol ++ ", found: " ++ symbol))

/-- `OrderBook::is_update_sequential`: `UpdateIdOutdated` when
`self.last_update_id >= last_update_id`, else `Ok(())`. -/
def OrderBook.is_update_sequential (b : OrderBook) (last_update_id : Nat) :
    Except OrderBookError Unit :=
  if b.last_update_id ≥ last_update_id then
    Except.error (OrderBookError.UpdateIdOutdated
      ("Skipping outdated update: " ++ toString last_update_id))
  else Except.ok ()

/-- Numeric value of a list of decimal digit characters, most significant
first. -/
def digitsVal (cs : List Char) : Nat :=
  cs.foldl (fun n c => 10 * n + (c.toNat - 48)) 0

/-- Exponent part of a float literal, after the `e`/`E`: an optional sign
followed by at least one digit, consuming the whole remainder. -/
def parseExp (cs : List Char) : Option Int :=
  let signed : Bool × List Char :=
    match cs with
    | '-' :: t => (true, t)
    | '+' :: t => (false, t)
    | t => (false, t)
  let ds := signed.2.takeWhile Char.isDigit
  let rest := signed.2.dropWhile Char.isDigit
  if ds = [] then none
  else if rest = [] then
    some (if signed.1 then -(digitsVal ds : Int) else (digitsVal ds : Int))
  else none

/-- Mantissa of a float literal: digits with an optional `.` and further
digits; at least one digit overall.  Returns the digit value, the number of
fractional digits and the unconsumed remainder, so that the mantissa's value
is `value / 10 ^ fractionalDigits`. -/
def parseMantissa (cs : List Char) : Option (Nat × Nat × List Char) :=
  let ip := cs.takeWhile Char.isDigit
  let r1 := cs.dropWhile Char.isDigit
  match r1 with
  | '.' :: r2 =>
    let fp := r2.takeWhile Char.isDigit
    let r3 := r2.dropWhile Char.isDigit
    if ip = [] ∧ fp = [] then none
    else some (digitsVal ip * 10 ^ fp.length + digitsVal fp, fp.length, r3)
  | _ =>
    if ip = [] then none else some (digitsVal ip, 0, r1)

/-- The rational `±(num / 10 ^ scale) * 10 ^ e`, assembled with integer
arithmetic and a single `mkRat`. -/
def ratOfParts (neg : Bool) (num : Nat) (scale : Nat) (e : Int) : ℚ :=
  let n : Int := if neg then -(num : Int) else (num : Int)
  match e with
  | Int.ofNat k => mkRat (n * ((10 ^ k : Nat) : Int)) (10 ^ scale)
  | Int.negSucc k => mkRat n (10 ^ scale * 10 ^ (k + 1))

/-- `str::parse::<f64>` modelled over `ℚ`: an optional sign, a mantissa and
an optional `e`/`E` exponent; any other shape fails.  The `inf`/`NaN`
literals, which the wire format never carries, are outside this rational
model. -/
def parseDecimal (s : String) : Option ℚ :=
  let cs := s.toList
  let signed : Bool × List Char :=
    match cs with
    | '-' :: t => (true, t)
    | '+' :: t => (false, t)
    | t => (false, t)
  match parseMantissa signed.2 with
  | none => none
  | some mr =>
    match mr.2.2 with
    | [] => some (ratOfParts signed.1 mr.1 mr.2.1 0)
    | 'e' :: r2 => (parseExp r2).map (fun e => ratOfParts signed.1 mr.1 mr.2.1 e)
    | 'E' :: r2 => (parseExp r2).map (fun e => ratOfParts signed.1 mr.1 mr.2.1 e)
    | _ => none

/-- `parse_f64` of src/helper.rs: wrap a parse failure of `value` into a
`ParseError` naming the field `name`. -/
def parse_f64 (value : String) (name : String) : Except OrderBookError ℚ :=
  match parseDecimal value with
  | some val => Except.ok val
  | none => Except.error (OrderBookError.ParseError
      ("Error parsing " ++ name ++ ": invalid float literal"))

/-- `struct BookTickerUpdateReader` of src/structs.rs: the wire shape of a
book-ticker message, prices and quantities still strings. -/
structure BookTickerUpdateReader where
  last_update_id : Nat
  symbol : String
  bid_price : String
  bid_qty : String
  ask_price : String
  ask_qty : String
deriving DecidableEq, Repr

/-- `struct DepthUpdateReader` of src/structs.rs: the wire shape of a depth
message; each level is a `[priceStr, qtyStr]` pair and there is no symbol
field. -/
structure DepthUpdateReader where
  last_update_id : Nat
  bids : List (String × String)
  asks : List (String × String)
deriving DecidableEq, Repr

/-- `BookTickerUpdate::from_reader`: parse the four decimal strings with
`parse_f64`, propagating the first failure (the `?` operator), and carry the
reader's update id. -/
def BookTickerUpdate.from_reader (reader : BookTickerUpdateReader) :
    Except OrderBookError BookTickerUpdate :=
  match parse_f64 reader.bid_price "bid_price" with
  | Except.error e => Except.error e
  | Except.ok bid_price =>
    match parse_f64 reader.bid_qty "bid_qty" with
    | Except.error e => Except.error e
    | Except.ok bid_qty =>
      match parse_f64 reader.ask_price "ask_price" with
      | Except.error e => Except.error e
      | Except.ok ask_price =>
        match parse_f64 reader.ask_qty "ask_qty" with
        | Except.error e => Except.error e
        | Except.ok ask_qty =>
          Except.ok
            { last_update_id := reader.last_update_id
              bid_price := bid_price
              bid_qty := bid_qty
              ask_price := ask_price
              ask_qty := ask_qty }

/-- `DepthUpdate::from_reader`: total conversion; every component is parsed
independently and `parse().unwrap_or_default()` turns a failed parse into
`0.0`. -/
def DepthUpdate.from_reader (reader : DepthUpdateReader) : DepthUpdate :=
  { last_update_id := reader.last_update_id
    bids := reader.bids.map (fun b => ((parseDecimal b.1).getD 0, (parseDecimal b.2).getD 0))
    asks := reader.asks.map (fun a => ((parseDecimal a.1).getD 0, (parseDecimal a.2).getD 0)) }

/-- `enum BinanceMessage` of src/enums.rs: a demultiplexed wire message. -/
inductive BinanceMessage where
  | BookTicker (r : BookTickerUpdateReader)
  | DepthUpdate (r : DepthUpdateReader)
deriving DecidableEq, Repr

/-- The symbol a wire message carries: book-ticker messages carry the `s`
field, depth messages have no symbol field. -/
def BinanceMessage.symbol? (m : BinanceMessage) : Option String :=
  match m with
  | BinanceMessage.BookTicker r => some r.symbol
  | BinanceMessage.DepthUpdate _ => none

/-- The `JsonProcessing` branch of `menu_interface` in src/menu.rs, for one
already-demultiplexed message: a book-ticker message passes `is_symbol_same`,
then `is_update_sequential`, then `BookTickerUpdate::from_reader`, and only
then mutates via `update_book_ticker`; a depth message passes
`is_update_sequential` and then mutates via `update_depth`; every failed
check leaves the book unchanged (`continue`). -/
def processJson (b : OrderBook) (m : BinanceMessage) : OrderBook :=
  match m with
  | BinanceMessage.BookTicker r =>
    match b.is_symbol_same r.symbol with
    | Except.error _ => b
    | Except.ok _ =>
      match b.is_update_sequential r.last_update_id with
      | Except.error _ => b
      | Except.ok _ =>
        match BookTickerUpdate.from_reader r with
        | Except.error _ => b
        | Except.ok u => b.update_book_ticker u

  | BinanceMessage.DepthUpdate r =>
    match b.is_update_sequential r.last_update_id with
    | Except.error _ => b
    | Except.ok _ => b.update_depth (DepthUpdate.from_reader r)

/-! ### Lookup lemmas for the price maps -/

theorem PriceMap.lookup_cons (e : ℚ × ℚ) (t : PriceMap) (k : ℚ) :
    PriceMap.lookup (e :: t) k = if e.1 = k then some e.2 else t.lookup k := rfl

theorem PriceMap.insert_cons (e : ℚ × ℚ) (t : PriceMap) (k v : ℚ) :
    PriceMap.insert (e :: t) k v =
      if k < e.1 then (k, v) :: e :: t
      else if k = e.1 then (k, v) :: t
      else e :: PriceMap.insert t k v := rfl

theorem PriceMap.erase_cons (e : ℚ × ℚ) (t : PriceMap) (k : ℚ) :
    PriceMap.erase (e :: t) k =
      if e.1 = k then PriceMap.erase t k else e :: PriceMap.erase t k := rfl

theorem PriceMap.lookup_insert_self (m : PriceMap) (k v : ℚ) :
    (m.insert k v).lookup k = some v := by
  induction m with
  | nil => simp [PriceMap.insert, PriceMap.lookup]
  | cons e t ih =>
    rw [PriceMap.insert_cons]
    by_cases h1 : k < e.1
    · rw [if_pos h1]
      simp [PriceMap.lookup]
    · rw [if_neg h1]
      by_cases h2 : k = e.1
      · rw [if_pos h2]
        simp [PriceMap.lookup]
      · rw [if_neg h2, PriceMap.lookup_cons]
        have hne : ¬ e.1 = k := fun h => h2 h.symm
        rw [if_neg hne, ih]

theorem PriceMap.lookup_insert_ne (m : PriceMap) (k v p : ℚ) (hpk : p ≠ k) :
    (m.insert k v).lookup p = m.lookup p := by
  have hkp : ¬ k = p := fun h => hpk h.symm
  induction m with
  | nil => simp [PriceMap.insert, PriceMap.lookup, hkp]
  | cons e t ih =>
    rw [PriceMap.insert_cons]
    by_cases h1 : k < e.1
    · rw [if_pos h1, PriceMap.lookup_cons]
      exact if_neg hkp
    · rw [if_neg h1]
      by_cases h2 : k = e.1
      · rw [if_pos h2, PriceMap.lookup_cons, if_neg hkp, PriceMap.lookup_cons]
        have he : ¬ e.1 = p := by rw [← h2]; exact hkp
        rw [if_neg he]
      · rw [if_neg h2, PriceMap.lookup_cons, PriceMap.lookup_cons, ih]

theorem PriceMap.lookup_erase_self (m : PriceMap) (k : ℚ) :
    (m.erase k).lookup k = none := by
  induction m with
  | nil => simp [PriceMap.erase, PriceMap.lookup]
  | cons e t ih =>
    rw [PriceMap.erase_cons]
    by_cases h : e.1 = k
    · rw [if_pos h, ih]
    · rw [if_neg h, PriceMap.lookup_cons, if_neg h, ih]

theorem PriceMap.lookup_erase_ne (m : PriceMap) (k p : ℚ) (hpk : p ≠ k) :
    (m.erase k).lookup p = m.lookup p := by
  induction m with
  | nil => simp [PriceMap.erase]
  | cons e t ih =>
    rw [PriceMap.erase_cons]
    by_cases h : e.1 = k
    · rw [if_pos h, ih, PriceMap.lookup_cons]
      have he : ¬ e.1 = p := by rw [h]; exact fun hh => hpk hh.symm
      rw [if_neg he]
    · rw [if_neg h, PriceMap.lookup_cons, PriceMap.lookup_cons, ih]

theorem lookup_applyLevel_self (m : PriceMap) (e : ℚ × ℚ) :
    (applyLevel m e).lookup e.1 = if e.2 > 0 then some e.2 else none := by
  by_cases h : e.2 > 0 <;>
    simp [applyLevel, h, PriceMap.lookup_insert_self, PriceMap.lookup_erase_self]

theorem lookup_applyLevel_ne (m : PriceMap) (e : ℚ × ℚ) (p : ℚ) (h : p ≠ e.1) :
    (applyLevel m e).lookup p = m.lookup p := by
  by_cases hq : e.2 > 0 <;>
    simp [applyLevel, hq, PriceMap.lookup_insert_ne _ _ _ _ h,
      PriceMap.lookup_erase_ne _ _ _ h]

/-- The effect of the last occurrence of price `p` in a batch of depth
levels: `none` when `p` never occurs, `some (some q)` when the last
occurrence carries quantity `q > 0`, and `some none` when it carries a
non-positive quantity (a removal).  Later batch entries take precedence. -/
def lastLevelEffect (levels : List (ℚ × ℚ)) (p : ℚ) : Option (Option ℚ) :=
  match levels with
  | [] => none
  | e :: t =>
    match lastLevelEffect t p with
    | some r => some r
    | none => if e.1 = p then some (if e.2 > 0 then some e.2 else none) else none

theorem lookup_foldl_applyLevel (levels : List (ℚ × ℚ)) (m : PriceMap) (p : ℚ) :
    (levels.foldl applyLevel m).lookup p = (lastLevelEffect levels p).getD (m.lookup p) := by
  induction levels generalizing m with
  | nil => simp [lastLevelEffect]
  | cons e t ih =>
    rw [List.foldl_cons, ih]
    cases h : lastLevelEffect t p with
    | some r => simp [lastLevelEffect, h]
    | none =>
      simp only [lastLevelEffect, h]
      by_cases hp : e.1 = p
      · rw [← hp]
        simp [lookup_applyLevel_self]
      · have hp2 : p ≠ e.1 := fun hh => hp hh.symm
        simp [hp, lookup_applyLevel_ne m e p hp2]

/-! ### Component lemmas for the two mutation operations -/

theorem update_book_ticker_last (b : OrderBook) (d : BookTickerUpdate) :
    (b.update_book_ticker d).last_update_id = d.last_update_id := by
  by_cases ha : d.ask_qty > 0 <;> by_cases hb : d.bid_qty > 0 <;>
    simp [OrderBook.update_book_ticker, ha, hb]

theorem update_book_ticker_symbol (b : OrderBook) (d : BookTickerUpdate) :
    (b.update_book_ticker d).symbol = b.symbol := by
  by_cases ha : d.ask_qty > 0 <;> by_cases hb : d.bid_qty > 0 <;>
    simp [OrderBook.update_book_ticker, ha, hb]

theorem update_book_ticker_bids_lookup (b : OrderBook) (d : BookTickerUpdate) (p : ℚ) :
    (b.update_book_ticker d).bids.lookup p =
      if p = d.bid_price then (if d.bid_qty > 0 then some d.bid_qty else none)
      else b.bids.lookup p := by
  by_cases hp : p = d.bid_price
  · subst hp
    by_cases ha : d.ask_qty > 0 <;> by_cases hb : d.bid_qty > 0 <;>
      simp [OrderBook.update_book_ticker, ha, hb,
        PriceMap.lookup_insert_self, PriceMap.lookup_erase_self]
  · by_cases ha : d.ask_qty > 0 <;> by_cases hb : d.bid_qty > 0 <;>
      simp [OrderBook.update_book_ticker, ha, hb, hp,
        PriceMap.lookup_insert_ne _ _ _ _ hp, PriceMap.lookup_erase_ne _ _ _ hp]

theorem update_book_ticker_asks_lookup (b : OrderBook) (d : BookTickerUpdate) (p : ℚ) :
    (b.update_book_ticker d).asks.lookup p =
      if p = d.ask_price then (if d.ask_qty > 0 then some d.ask_qty else none)
      else b.asks.lookup p := by
  by_cases hp : p = d.ask_price
  · subst hp
    by_cases ha : d.ask_qty > 0 <;> by_cases hb : d.bid_qty > 0 <;>
      simp [OrderBook.update_book_ticker, ha, hb,
        PriceMap.lookup_insert_self, PriceMap.lookup_erase_self]
  · by_cases ha : d.ask_qty > 0 <;> by_cases hb : d.bid_qty > 0 <;>
      simp [OrderBook.update_book_ticker, ha, hb, hp,
        PriceMap.lookup_insert_ne _ _ _ _ hp, PriceMap.lookup_erase_ne _ _ _ hp]

theorem update_depth_bids_lookup (b : OrderBook) (d : DepthUpdate) (p : ℚ) :
    (b.update_depth d).bids.lookup p = (lastLevelEffect d.bids p).getD (b.bids.lookup p) := by
  simp [OrderBook.update_depth, lookup_foldl_applyLevel]

theorem update_depth_asks_lookup (b : OrderBook) (d : DepthUpdate) (p : ℚ) :
    (b.update_depth d).asks.lookup p = (lastLevelEffect d.asks p).getD (b.asks.lookup p) := by
  simp [OrderBook.update_depth, lookup_foldl_applyLevel]

/-! ### Claim theorems -/

/-- C7: `update_book_ticker` never fails (it is a total function) and
produces exactly this state: `last_update_id` becomes the update's id; the
bid level at `bid_price` is set to `bid_qty` when `bid_qty > 0` and removed
otherwise; symmetrically on the ask side at `ask_price`; every other price
level on either side is untouched, and the symbol is unchanged. -/
theorem update_book_ticker_spec (b : OrderBook) (d : BookTickerUpdate) (p : ℚ) :
    (b.update_book_ticker d).last_update_id = d.last_update_id ∧
    (b.update_book_ticker d).symbol = b.symbol ∧
    (b.update_book_ticker d).bids.lookup d.bid_price =
      (if d.bid_qty > 0 then some d.bid_qty else none) ∧
    (b.update_book_ticker d).asks.lookup d.ask_price =
      (if d.ask_qty > 0 then some d.ask_qty else none) ∧
    (p ≠ d.bid_price → (b.update_book_ticker d).bids.lookup p = b.bids.lookup p) ∧
    (p ≠ d.ask_price → (b.update_book_ticker d).asks.lookup p = b.asks.lookup p) := by
  refine ⟨update_book_ticker_last b d, update_book_ticker_symbol b d, ?_, ?_, ?_, ?_⟩
  · rw [update_book_ticker_bids_lookup, if_pos rfl]
  · rw [update_book_ticker_asks_lookup, if_pos rfl]
  · intro hp
    rw [update_book_ticker_bids_lookup, if_neg hp]
  · intro hp
    rw [update_book_ticker_asks_lookup, if_neg hp]

/-- Witness for C7: a price different from both updated levels is left
untouched in a concrete book. -/
theorem update_book_ticker_spec_witness :
    ((3 : ℚ) ≠ (2 : ℚ)) ∧
    ((OrderBook.new "BNBUSDT").update_book_ticker ⟨7, 2, 5, 4, 6⟩).bids.lookup 3 =
      (OrderBook.new "BNBUSDT").bids.lookup 3 :=
  ⟨by decide,
    (update_book_ticker_spec (OrderBook.new "BNBUSDT") ⟨7, 2, 5, 4, 6⟩ 3).2.2.2.2.1 (by decide)⟩

/-- C4: `update_depth` sets `last_update_id` to the update's id and, at every
price `p`, the resulting level is determined by the last occurrence of `p` in
the batch (insert its quantity when positive, remove the level otherwise),
with prices not occurring in the batch untouched; the symbol is unchanged. -/
theorem update_depth_spec (b : OrderBook) (data : DepthUpdate) (p : ℚ) :
    (b.update_depth data).last_update_id = data.last_update_id ∧
    (b.update_depth data).symbol = b.symbol ∧
    (b.update_depth data).bids.lookup p =
      (lastLevelEffect data.bids p).getD (b.bids.lookup p) ∧
    (b.update_depth data).asks.lookup p =
      (lastLevelEffect data.asks p).getD (b.asks.lookup p) :=
  ⟨rfl, rfl, update_depth_bids_lookup b data p, update_depth_asks_lookup b data p⟩

/-- C2: `is_update_sequential` succeeds exactly when the candidate id is
strictly greater than `last_update_id`, and otherwise (in particular on an
equal id) returns an `UpdateIdOutdated` error; the function takes the book
by shared reference and cannot mutate it. -/
theorem is_update_sequential_spec (b : OrderBook) (c : Nat) :
    (b.is_update_sequential c = Except.ok () ↔ b.last_update_id < c) ∧
    (c ≤ b.last_update_id →
      ∃ msg, b.is_update_sequential c = Except.error (OrderBookError.UpdateIdOutdated msg)) := by
  constructor
  · constructor
    · intro h
      by_contra hlt
      have hge : b.last_update_id ≥ c := Nat.le_of_not_lt hlt
      simp only [OrderBook.is_update_sequential, if_pos hge] at h
      exact Except.noConfusion h
    · intro h
      have hge : ¬ b.last_update_id ≥ c := Nat.not_le_of_lt h
      simp only [OrderBook.is_update_sequential, if_neg hge]
  · intro h
    refine ⟨"Skipping outdated update: " ++ toString c, ?_⟩
    simp only [OrderBook.is_update_sequential, if_pos h]

/-- Witness for C2, spec Scenario C: a book whose `last_update_id` is 50
rejects an incoming id 50 as outdated. -/
theorem is_update_sequential_spec_witness :
    (50 : Nat) ≤ (⟨"BNBUSDT", 50, [], []⟩ : OrderBook).last_update_id ∧
    ∃ msg, (⟨"BNBUSDT", 50, [], []⟩ : OrderBook).is_update_sequential 50 =
      Except.error (OrderBookError.UpdateIdOutdated msg) :=
  ⟨by decide, (is_update_sequential_spec ⟨"BNBUSDT", 50, [], []⟩ 50).2 (by decide)⟩

/-- C10: `get_volume_at_price` returns the bid quantity when the price is a
bid key (bids take priority even when the price is on both sides), else the
ask quantity when it is an ask key, else `0`; it is a pure read. -/
theorem get_volume_at_price_spec (b : OrderBook) (p : ℚ) :
    (∀ q, b.bids.lookup p = some q → b.get_volume_at_price p = q) ∧
    (b.bids.lookup p = none →
      ∀ q, b.asks.lookup p = some q → b.get_volume_at_price p = q) ∧
    (b.bids.lookup p = none → b.asks.lookup p = none → b.get_volume_at_price p = 0) := by
  refine ⟨fun q h => ?_, fun h1 q h2 => ?_, fun h1 h2 => ?_⟩
  · simp [OrderBook.get_volume_at_price, h]
  · simp [OrderBook.get_volume_at_price, h1, h2]
  · simp [OrderBook.get_volume_at_price, h1, h2]

/-- Witness for C10: with price 2 present on both sides, the bid quantity is
returned. -/
theorem get_volume_at_price_spec_witness :
    (⟨"BNBUSDT", 0, [((2 : ℚ), (7 : ℚ))], [((2 : ℚ), (9 : ℚ))]⟩ : OrderBook).bids.lookup 2 =
      some 7 ∧
    (⟨"BNBUSDT", 0, [((2 : ℚ), (7 : ℚ))], [((2 : ℚ), (9 : ℚ))]⟩ : OrderBook).get_volume_at_price 2
      = 7 :=
  ⟨by decide,
    (get_volume_at_price_spec ⟨"BNBUSDT", 0, [(2, 7)], [(2, 9)]⟩ 2).1 7 (by decide)⟩

/-! ### Invariant I1 over the full float domain

Invariant I1 is claimed for arbitrary quantities including the non-finite
floats, which the rational model above cannot represent.  This section
re-embeds the two mutation operations over `Rfloat`, a model of the full
`f64` value domain: the finite values (as rationals) together with `+inf`,
`-inf` and `NaN`.  `Rfloat.flt` is IEEE-754 `<` (every comparison involving
`NaN` is false), so the source's `qty > 0.0` tests become
`Rfloat.flt (Rfloat.finite 0) qty`; map keys are compared by the total order
the `OrderedFloat` wrapper imposes (`NaN` equal to itself and above every
other value), so a `NaN` price occupies one well-defined map entry. -/

/-- A modelled `f64` value: a finite rational, or one of the non-finite
values `+inf`, `-inf`, `NaN`. -/
inductive Rfloat where
  | finite (q : ℚ)
  | inf
  | negInf
  | nan
deriving DecidableEq, Repr

/-- IEEE-754 `<` on modelled doubles: false whenever either side is `NaN`;
`-inf` below and `+inf` above every finite value. -/
def Rfloat.flt : Rfloat → Rfloat → Bool
  | Rfloat.nan, _ => false
  | _, Rfloat.nan => false
  | Rfloat.negInf, Rfloat.negInf => false
  | Rfloat.negInf, _ => true
  | Rfloat.inf, _ => false
  | Rfloat.finite _, Rfloat.negInf => false
  | Rfloat.finite a, Rfloat.finite b => decide (a < b)
  | Rfloat.finite _, Rfloat.inf => true

/-- The total order the `OrderedFloat` wrapper imposes on map keys:
`-inf < finite < +inf < NaN`, finite values by numeric order. -/
def Rfloat.keyLt : Rfloat → Rfloat → Bool
  | Rfloat.negInf, Rfloat.negInf => false
  | Rfloat.negInf, _ => true
  | Rfloat.finite _, Rfloat.negInf => false
  | Rfloat.finite a, Rfloat.finite b => decide (a < b)
  | Rfloat.finite _, _ => true
  | Rfloat.inf, Rfloat.nan => true
  | Rfloat.inf, _ => false
  | Rfloat.nan, _ => false

/-- Association list from price to quantity over the full float domain,
modelling `BTreeMap<OrderedFloat<f64>, f64>`, sorted by `Rfloat.keyLt`. -/
abbrev PriceMapF := List (Rfloat × Rfloat)

/-- `BTreeMap::get` over the float domain, by the `OrderedFloat` key
equality. -/
def PriceMapF.lookup (m : PriceMapF) (k : Rfloat) : Option Rfloat :=
  match m with
  | [] => none
  | e :: t => if e.1 = k then some e.2 else PriceMapF.lookup t k

/-- `BTreeMap::insert` over the float domain. -/
def PriceMapF.insert (m : PriceMapF) (k v : Rfloat) : PriceMapF :=
  match m with
  | [] => [(k, v)]
  | e :: t =>
    if Rfloat.keyLt k e.1 = true then (k, v) :: e :: t
    else if k = e.1 then (k, v) :: t
    else e :: PriceMapF.insert t k v

/-- `BTreeMap::remove` over the float domain. -/
def PriceMapF.erase (m : PriceMapF) (k : Rfloat) : PriceMapF :=
  match m with
  | [] => []
  | e :: t => if e.1 = k then PriceMapF.erase t k else e :: PriceMapF.erase t k

/-- `struct BookTickerUpdate` with the numeric fields over the full float
domain. -/
structure BookTickerUpdateF where
  last_update_id : Nat
  bid_price : Rfloat
  bid_qty : Rfloat
  ask_price : Rfloat
  ask_qty : Rfloat
deriving DecidableEq, Repr

/-- `struct DepthUpdate` with the levels over the full float domain. -/
structure DepthUpdateF where
  last_update_id : Nat
  bids : List (Rfloat × Rfloat)
  asks : List (Rfloat × Rfloat)
deriving DecidableEq, Repr

/-- `struct OrderBook` with both maps over the full float domain. -/
structure OrderBookF where
  symbol : String
  last_update_id : Nat
  bids : PriceMapF
  asks : PriceMapF
deriving DecidableEq, Repr

/-- `OrderBook::new` over the float domain. -/
def OrderBookF.new (symbol : String) : OrderBookF :=
  { symbol := symbol, last_update_id := 0, bids := [], asks := [] }

/-- `OrderBook::update_book_ticker` over the full float domain; the
`data.bid_qty > 0.0` and `data.ask_qty > 0.0` tests are IEEE comparisons,
false for `NaN` and for every non-positive value. -/
def OrderBookF.update_book_ticker (b : OrderBookF) (data : BookTickerUpdateF) : OrderBookF :=
  let b1 : OrderBookF := { b with last_update_id := data.last_update_id }
  let b2 : OrderBookF :=
    if Rfloat.flt (Rfloat.finite 0) data.bid_qty = true
    then { b1 with bids := b1.bids.insert data.bid_price data.bid_qty }
    else { b1 with bids := b1.bids.erase data.bid_price }
  if Rfloat.flt (Rfloat.finite 0) data.ask_qty = true
  then { b2 with asks := b2.asks.insert data.ask_price data.ask_qty }
  else { b2 with asks := b2.asks.erase data.ask_price }

/-- One iteration of the `for (price, qty)` loops of
`OrderBook::update_depth`, over the full float domain. -/
def applyLevelF (m : PriceMapF) (e : Rfloat × Rfloat) : PriceMapF :=
  if Rfloat.flt (Rfloat.finite 0) e.2 = true then m.insert e.1 e.2 else m.erase e.1

/-- `OrderBook::update_depth` over the full float domain. -/
def OrderBookF.update_depth (b : OrderBookF) (data : DepthUpdateF) : OrderBookF :=
  { b with
    last_update_id := data.last_update_id
    bids := data.bids.foldl applyLevelF b.bids
    asks := data.asks.foldl applyLevelF b.asks }

theorem PriceMapF.lookupF_insert_self (m : PriceMapF) (k v : Rfloat) :
    (m.insert k v).lookup k = some v := by
  induction m with
  | nil => simp [PriceMapF.insert, PriceMapF.lookup]
  | cons e t ih =>
    show PriceMapF.lookup
      (if Rfloat.keyLt k e.1 = true then (k, v) :: e :: t
       else if k = e.1 then (k, v) :: t
       else e :: PriceMapF.insert t k v) k = some v
    by_cases h1 : Rfloat.keyLt k e.1 = true
    · rw [if_pos h1]
      simp [PriceMapF.lookup]
    · rw [if_neg h1]
      by_cases h2 : k = e.1
      · rw [if_pos h2]
        simp [PriceMapF.lookup]
      · rw [if_neg h2]
        show (if e.1 = k then some e.2 else PriceMapF.lookup (PriceMapF.insert t k v) k) = some v
        have hne : ¬ e.1 = k := fun h => h2 h.symm
        rw [if_neg hne, ih]

theorem PriceMapF.lookupF_insert_ne (m : PriceMapF) (k v p : Rfloat) (hpk : p ≠ k) :
    (m.insert k v).lookup p = m.lookup p := by
  have hkp : ¬ k = p := fun h => hpk h.symm
  induction m with
  | nil => simp [PriceMapF.insert, PriceMapF.lookup, hkp]
  | cons e t ih =>
    show PriceMapF.lookup
      (if Rfloat.keyLt k e.1 = true then (k, v) :: e :: t
       else if k = e.1 then (k, v) :: t
       else e :: PriceMapF.insert t k v) p = PriceMapF.lookup (e :: t) p
    by_cases h1 : Rfloat.keyLt k e.1 = true
    · rw [if_pos h1]
      show (if k = p then some v else PriceMapF.lookup (e :: t) p) = PriceMapF.lookup (e :: t) p
      rw [if_neg hkp]
    · rw [if_neg h1]
      by_cases h2 : k = e.1
      · rw [if_pos h2]
        show (if k = p then some v else PriceMapF.lookup t p) = PriceMapF.lookup (e :: t) p
        rw [if_neg hkp]
        have he : ¬ e.1 = p := by rw [← h2]; exact hkp
        show PriceMapF.lookup t p = if e.1 = p then some e.2 else PriceMapF.lookup t p
        rw [if_neg he]
      · rw [if_neg h2]
        show (if e.1 = p then some e.2 else PriceMapF.lookup (PriceMapF.insert t k v) p)
          = if e.1 = p then some e.2 else PriceMapF.lookup t p
        rw [ih]

theorem PriceMapF.lookupF_erase_self (m : PriceMapF) (k : Rfloat) :
    (m.erase k).lookup k = none := by
  induction m with
  | nil => simp [PriceMapF.erase, PriceMapF.lookup]
  | cons e t ih =>
    show PriceMapF.lookup
      (if e.1 = k then PriceMapF.erase t k else e :: PriceMapF.erase t k) k = none
    by_cases h : e.1 = k
    · rw [if_pos h, ih]
    · rw [if_neg h]
      show (if e.1 = k then some e.2 else PriceMapF.lookup (PriceMapF.erase t k) k) = none
      rw [if_neg h, ih]

theorem PriceMapF.lookupF_erase_ne (m : PriceMapF) (k p : Rfloat) (hpk : p ≠ k) :
    (m.erase k).lookup p = m.lookup p := by
  induction m with
  | nil => simp [PriceMapF.erase]
  | cons e t ih =>
    show PriceMapF.lookup
      (if e.1 = k then PriceMapF.erase t k else e :: PriceMapF.erase t k) p
      = PriceMapF.lookup (e :: t) p
    by_cases h : e.1 = k
    · rw [if_pos h, ih]
      have he : ¬ e.1 = p := by rw [h]; exact fun hh => hpk hh.symm
      show PriceMapF.lookup t p = if e.1 = p then some e.2 else PriceMapF.lookup t p
      rw [if_neg he]
    · rw [if_neg h]
      show (if e.1 = p then some e.2 else PriceMapF.lookup (PriceMapF.erase t k) p)
        = if e.1 = p then some e.2 else PriceMapF.lookup t p
      rw [ih]

/-- Invariant I1 for one side over the full float domain: every stored
quantity is strictly positive in the IEEE sense (`0.0 < qty`), which no
`NaN`, zero or negative value satisfies. -/
def hasPositiveQtyF (m : PriceMapF) : Prop :=
  ∀ p q, m.lookup p = some q → Rfloat.flt (Rfloat.finite 0) q = true

/-- Invariant I1 of the spec over the full float domain. -/
def inv1F (b : OrderBookF) : Prop := hasPositiveQtyF b.bids ∧ hasPositiveQtyF b.asks

theorem hasPositiveQtyF_insert {m : PriceMapF} (hm : hasPositiveQtyF m) {k v : Rfloat}
    (hv : Rfloat.flt (Rfloat.finite 0) v = true) : hasPositiveQtyF (m.insert k v) := by
  intro p q hq
  by_cases hp : p = k
  · rw [hp, PriceMapF.lookupF_insert_self] at hq
    exact (Option.some.inj hq) ▸ hv
  · rw [PriceMapF.lookupF_insert_ne m k v p hp] at hq
    exact hm p q hq

theorem hasPositiveQtyF_erase {m : PriceMapF} (hm : hasPositiveQtyF m) (k : Rfloat) :
    hasPositiveQtyF (m.erase k) := by
  intro p q hq
  by_cases hp : p = k
  · rw [hp, PriceMapF.lookupF_erase_self] at hq
    exact Option.noConfusion hq
  · rw [PriceMapF.lookupF_erase_ne m k p hp] at hq
    exact hm p q hq

theorem hasPositiveQtyF_applyLevel {m : PriceMapF} (hm : hasPositiveQtyF m)
    (e : Rfloat × Rfloat) : hasPositiveQtyF (applyLevelF m e) := by
  unfold applyLevelF
  by_cases hgate : Rfloat.flt (Rfloat.finite 0) e.2 = true
  · rw [if_pos hgate]
    exact hasPositiveQtyF_insert hm hgate
  · rw [if_neg hgate]
    exact hasPositiveQtyF_erase hm e.1

theorem hasPositiveQtyF_foldl (levels : List (Rfloat × Rfloat)) {m : PriceMapF}
    (hm : hasPositiveQtyF m) : hasPositiveQtyF (levels.foldl applyLevelF m) := by
  induction levels generalizing m with
  | nil => exact hm
  | cons e t ih =>
    rw [List.foldl_cons]
    exact ih (hasPositiveQtyF_applyLevel hm e)

theorem update_book_tickerF_bids (b : OrderBookF) (d : BookTickerUpdateF) :
    (b.update_book_ticker d).bids =
      if Rfloat.flt (Rfloat.finite 0) d.bid_qty = true
      then b.bids.insert d.bid_price d.bid_qty
      else b.bids.erase d.bid_price := by
  by_cases hga : Rfloat.flt (Rfloat.finite 0) d.ask_qty = true <;>
    by_cases hgb : Rfloat.flt (Rfloat.finite 0) d.bid_qty = true <;>
      simp [OrderBookF.update_book_ticker, hga, hgb]

theorem update_book_tickerF_asks (b : OrderBookF) (d : BookTickerUpdateF) :
    (b.update_book_ticker d).asks =
      if Rfloat.flt (Rfloat.finite 0) d.ask_qty = true
      then b.asks.insert d.ask_price d.ask_qty
      else b.asks.erase d.ask_price := by
  by_cases hga : Rfloat.flt (Rfloat.finite 0) d.ask_qty = true <;>
    by_cases hgb : Rfloat.flt (Rfloat.finite 0) d.bid_qty = true <;>
      simp [OrderBookF.update_book_ticker, hga, hgb]

/-- C5: invariant I1 is preserved by both mutation operations over the full
float domain — arbitrary prices and quantities, including zero, negative and
the non-finite values.  A level given a quantity that is not strictly
positive in the IEEE sense (zero, negative, `-inf` or `NaN`, all of which
fail the source's `qty > 0.0` test) is absent afterward, never present with
that value; `+inf`, which IEEE orders strictly above 0, may be stored and
keeps the invariant. -/
theorem invariant_I1_preserved (b : OrderBookF) (h : inv1F b) (d : BookTickerUpdateF)
    (data : DepthUpdateF) :
    inv1F (b.update_book_ticker d) ∧ inv1F (b.update_depth data) := by
  obtain ⟨hb, ha⟩ := h
  refine ⟨⟨?_, ?_⟩, ?_, ?_⟩
  · rw [show (b.update_book_ticker d).bids = _ from update_book_tickerF_bids b d]
    by_cases hgb : Rfloat.flt (Rfloat.finite 0) d.bid_qty = true
    · rw [if_pos hgb]
      exact hasPositiveQtyF_insert hb hgb
    · rw [if_neg hgb]
      exact hasPositiveQtyF_erase hb d.bid_price
  · rw [show (b.update_book_ticker d).asks = _ from update_book_tickerF_asks b d]
    by_cases hga : Rfloat.flt (Rfloat.finite 0) d.ask_qty = true
    · rw [if_pos hga]
      exact hasPositiveQtyF_insert ha hga
    · rw [if_neg hga]
      exact hasPositiveQtyF_erase ha d.ask_price
  · exact hasPositiveQtyF_foldl data.bids hb
  · exact hasPositiveQtyF_foldl data.asks ha

/-- Witness for C5 with non-finite inputs: a ticker carrying a `+inf` bid
quantity (stored, IEEE-positive) and a `NaN` ask quantity (removed), then a
depth batch that zeroes a just-inserted finite price (spec Scenario E),
writes an `+inf` quantity at a `NaN` price and carries a `NaN` quantity at a
finite price — invariant I1 holds throughout. -/
theorem invariant_I1_preserved_witness :
    inv1F (OrderBookF.new "BNBUSDT") ∧
    inv1F ((OrderBookF.new "BNBUSDT").update_book_ticker
      ⟨5, Rfloat.finite 1, Rfloat.inf, Rfloat.finite 2, Rfloat.nan⟩) ∧
    inv1F ((OrderBookF.new "BNBUSDT").update_depth
      ⟨9, [(Rfloat.finite 1, Rfloat.finite 2), (Rfloat.finite 1, Rfloat.finite 0)],
          [(Rfloat.nan, Rfloat.inf), (Rfloat.finite 3, Rfloat.nan)]⟩) :=
  ⟨⟨fun _ _ h => Option.noConfusion h, fun _ _ h => Option.noConfusion h⟩,
    (invariant_I1_preserved (OrderBookF.new "BNBUSDT")
      ⟨fun _ _ h => Option.noConfusion h, fun _ _ h => Option.noConfusion h⟩
      ⟨5, Rfloat.finite 1, Rfloat.inf, Rfloat.finite 2, Rfloat.nan⟩
      ⟨9, [(Rfloat.finite 1, Rfloat.finite 2), (Rfloat.finite 1, Rfloat.finite 0)],
          [(Rfloat.nan, Rfloat.inf), (Rfloat.finite 3, Rfloat.nan)]⟩).1,
    (invariant_I1_preserved (OrderBookF.new "BNBUSDT")
      ⟨fun _ _ h => Option.noConfusion h, fun _ _ h => Option.noConfusion h⟩
      ⟨5, Rfloat.finite 1, Rfloat.inf, Rfloat.finite 2, Rfloat.nan⟩
      ⟨9, [(Rfloat.finite 1, Rfloat.finite 2), (Rfloat.finite 1, Rfloat.finite 0)],
          [(Rfloat.nan, Rfloat.inf), (Rfloat.finite 3, Rfloat.nan)]⟩).2⟩

/-! ### Best bid / best ask -/

/-- The well-formedness the `BTreeMap` guarantees by construction: the
association list is strictly ascending in the price key. -/
abbrev sortedByPrice (m : PriceMap) : Prop :=
  List.Pairwise (fun a b => a.1 < b.1) m

theorem sorted_getLast_max :
    ∀ (l : PriceMap), sortedByPrice l → ∀ e, l.getLast? = some e →
      e ∈ l ∧ ∀ x ∈ l, x.1 ≤ e.1 := by
  intro l
  induction l with
  | nil => exact fun _ e he => Option.noConfusion he
  | cons a t ih =>
    intro hs e he
    cases t with
    | nil =>
      have hae : a = e := by simpa using he
      subst hae
      refine ⟨List.mem_singleton_self a, ?_⟩
      intro x hx
      rw [List.mem_singleton] at hx
      rw [hx]
    | cons b t2 =>
      rw [List.getLast?_cons_cons] at he
      have hsplit := List.pairwise_cons.mp hs
      obtain ⟨hmem, hmax⟩ := ih hsplit.2 e he
      refine ⟨List.mem_cons_of_mem a hmem, ?_⟩
      intro x hx
      rcases List.mem_cons.mp hx with hxa | hx2
      · rw [hxa]
        exact le_of_lt (hsplit.1 e hmem)
      · exact hmax x hx2

theorem sorted_head_min (l : PriceMap) (hs : sortedByPrice l) (e : ℚ × ℚ)
    (he : l.head? = some e) : e ∈ l ∧ ∀ x ∈ l, e.1 ≤ x.1 := by
  cases l with
  | nil => exact Option.noConfusion he
  | cons a t =>
    have hae : a = e := Option.some.inj he
    subst hae
    refine ⟨List.mem_cons_self a t, ?_⟩
    intro x hx
    rcases List.mem_cons.mp hx with hxa | hx2
    · rw [hxa]
    · exact le_of_lt ((List.pairwise_cons.mp hs).1 x hx2)

/-- C6: on a well-formed book (both maps sorted ascending by price, as the
`BTreeMap` guarantees), `get_best_bid_ask` returns `None` exactly when at
least one side is empty, and otherwise the maximum-price bid entry paired
with the minimum-price ask entry; it is a pure read. -/
theorem get_best_bid_ask_spec (b : OrderBook) (hb : sortedByPrice b.bids)
    (ha : sortedByPrice b.asks) :
    (b.get_best_bid_ask = none ↔ (b.bids = [] ∨ b.asks = [])) ∧
    (∀ bid ask, b.get_best_bid_ask = some (bid, ask) →
      (bid ∈ b.bids ∧ ∀ x ∈ b.bids, x.1 ≤ bid.1) ∧
      (ask ∈ b.asks ∧ ∀ x ∈ b.asks, ask.1 ≤ x.1)) := by
  unfold OrderBook.get_best_bid_ask
  cases hbl : b.bids.getLast? with
  | none =>
    have hbnil : b.bids = [] := List.getLast?_eq_none_iff.mp hbl
    exact ⟨⟨fun _ => Or.inl hbnil, fun _ => rfl⟩, fun bid ask hsome => Option.noConfusion hsome⟩
  | some bide =>
    cases hal : b.asks.head? with
    | none =>
      have hanil : b.asks = [] := List.head?_eq_none_iff.mp hal
      exact ⟨⟨fun _ => Or.inr hanil, fun _ => rfl⟩, fun bid ask hsome => Option.noConfusion hsome⟩
    | some aske =>
      constructor
      · constructor
        · intro hnone
          exact Option.noConfusion hnone
        · intro hor
          rcases hor with hnil | hnil
          · rw [hnil] at hbl
            exact Option.noConfusion hbl
          · rw [hnil] at hal
            exact Option.noConfusion hal
      · intro bid ask hsome
        have hpair := Option.some.inj hsome
        have hbid : bide = bid := congrArg Prod.fst hpair
        have hask : aske = ask := congrArg Prod.snd hpair
        subst hbid
        subst hask
        exact ⟨sorted_getLast_max b.bids hb bide hbl, sorted_head_min b.asks ha aske hal⟩

/-- Witness for C6 on a concrete sorted book: best bid is the maximal-price
bid entry and best ask the minimal-price ask entry. -/
theorem get_best_bid_ask_spec_witness :
    sortedByPrice (⟨"BNBUSDT", 1, [(1, 2), (3, 4)], [(5, 6), (7, 8)]⟩ : OrderBook).bids ∧
    sortedByPrice (⟨"BNBUSDT", 1, [(1, 2), (3, 4)], [(5, 6), (7, 8)]⟩ : OrderBook).asks ∧
    ((3, 4) ∈ (⟨"BNBUSDT", 1, [(1, 2), (3, 4)], [(5, 6), (7, 8)]⟩ : OrderBook).bids ∧
      ∀ x ∈ (⟨"BNBUSDT", 1, [(1, 2), (3, 4)], [(5, 6), (7, 8)]⟩ : OrderBook).bids,
        x.1 ≤ ((3 : ℚ), (4 : ℚ)).1) :=
  ⟨by decide, by decide,
    ((get_best_bid_ask_spec ⟨"BNBUSDT", 1, [(1, 2), (3, 4)], [(5, 6), (7, 8)]⟩
      (by decide) (by decide)).2 (3, 4) (5, 6) (by decide)).1⟩

/-! ### The symbol gate on the JSON-processing path -/

/-- C3: along the JSON-processing path the book never mutates for a message
whose carried symbol differs from the symbol fixed at construction; this
covers both wire shapes, the depth shape vacuously since it carries no
symbol field. -/
theorem symbol_gate_spec (b : OrderBook) (m : BinanceMessage) (s : String)
    (hs : m.symbol? = some s) (hne : s ≠ b.symbol) : processJson b m = b := by
  cases m with
  | DepthUpdate r => exact Option.noConfusion hs
  | BookTicker r =>
    have hrs : r.symbol = s := Option.some.inj hs
    have hbs : ¬ b.symbol = r.symbol := by
      rw [hrs]
      exact fun h => hne h.symm
    simp only [processJson, OrderBook.is_symbol_same, if_neg hbs]

/-- Witness for C3, spec Scenario D: a book tracking BNBUSDT is unchanged by
a ticker-shaped message carrying symbol ETHUSDT. -/
theorem symbol_gate_spec_witness :
    (BinanceMessage.BookTicker ⟨60, "ETHUSDT", "1", "2", "3", "4"⟩).symbol? = some "ETHUSDT" ∧
    "ETHUSDT" ≠ (OrderBook.new "BNBUSDT").symbol ∧
    processJson (OrderBook.new "BNBUSDT")
      (BinanceMessage.BookTicker ⟨60, "ETHUSDT", "1", "2", "3", "4"⟩) =
      OrderBook.new "BNBUSDT" :=
  ⟨rfl, by decide,
    symbol_gate_spec (OrderBook.new "BNBUSDT")
      (BinanceMessage.BookTicker ⟨60, "ETHUSDT", "1", "2", "3", "4"⟩) "ETHUSDT" rfl (by decide)⟩

/-! ### Monotonicity of the update id -/

theorem is_update_sequential_ok_lt {b : OrderBook} {c : Nat} {u : Unit}
    (h : b.is_update_sequential c = Except.ok u) : b.last_update_id < c := by
  by_contra hnlt
  have hge : b.last_update_id ≥ c := Nat.le_of_not_lt hnlt
  simp only [OrderBook.is_update_sequential, if_pos hge] at h
  exact Except.noConfusion h

theorem from_reader_cases (r : BookTickerUpdateReader) :
    BookTickerUpdate.from_reader r =
      match parseDecimal r.bid_price, parseDecimal r.bid_qty,
          parseDecimal r.ask_price, parseDecimal r.ask_qty with
      | some bp, some bq, some ap, some aq =>
        Except.ok ⟨r.last_update_id, bp, bq, ap, aq⟩
      | none, _, _, _ =>
        Except.error (OrderBookError.ParseError "Error parsing bid_price: invalid float literal")
      | some _, none, _, _ =>
        Except.error (OrderBookError.ParseError "Error parsing bid_qty: invalid float literal")
      | some _, some _, none, _ =>
        Except.error (OrderBookError.ParseError "Error parsing ask_price: invalid float literal")
      | some _, some _, some _, none =>
        Except.error (OrderBookError.ParseError "Error parsing ask_qty: invalid float literal") := by
  unfold BookTickerUpdate.from_reader parse_f64
  cases parseDecimal r.bid_price <;> cases parseDecimal r.bid_qty <;>
    cases parseDecimal r.ask_price <;> cases parseDecimal r.ask_qty <;> rfl

theorem from_reader_last {r : BookTickerUpdateReader} {u : BookTickerUpdate}
    (h : BookTickerUpdate.from_reader r = Except.ok u) :
    u.last_update_id = r.last_update_id := by
  rw [from_reader_cases] at h
  revert h
  cases parseDecimal r.bid_price <;> cases parseDecimal r.bid_qty <;>
    cases parseDecimal r.ask_price <;> cases parseDecimal r.ask_qty <;>
      intro h <;>
      first
      | exact Except.noConfusion h
      | (injection h with h2
         rw [← h2])

theorem processJson_last_le (b : OrderBook) (m : BinanceMessage) :
    b.last_update_id ≤ (processJson b m).last_update_id := by
  cases m with
  | BookTicker r =>
    cases hsym : b.is_symbol_same r.symbol with
    | error e => simp [processJson, hsym]
    | ok v =>
      cases hseq : b.is_update_sequential r.last_update_id with
      | error e => simp [processJson, hsym, hseq]
      | ok w =>
        cases hparse : BookTickerUpdate.from_reader r with
        | error e => simp [processJson, hsym, hseq, hparse]
        | ok upd =>
          simp only [processJson, hsym, hseq, hparse]
          rw [update_book_ticker_last, from_reader_last hparse]
          exact le_of_lt (is_update_sequential_ok_lt hseq)
  | DepthUpdate r =>
    cases hseq : b.is_update_sequential r.last_update_id with
    | error e => simp [processJson, hseq]
    | ok w =>
      simp only [processJson, hseq]
      exact le_of_lt (is_update_sequential_ok_lt hseq)

/-- C1 counterexample: with the raw mutation operations themselves,
`last_update_id` is not non-decreasing — `update_book_ticker` and
`update_depth` assign it unconditionally, so a later call carrying a smaller
id (here, depth id 3 after ticker id 5) strictly decreases it. -/
theorem lastUpdateId_monotone_counterexample :
    (((OrderBook.new "BNBUSDT").update_book_ticker ⟨5, 1, 1, 2, 1⟩).update_depth
        ⟨3, [], []⟩).last_update_id
      < ((OrderBook.new "BNBUSDT").update_book_ticker ⟨5, 1, 1, 2, 1⟩).last_update_id := by
  decide

/-- C1 (amended): along the gated path — every update applied only after a
successful `is_update_sequential` check, as the JSON-processing branch does —
`last_update_id` is non-decreasing over any sequence of processed messages
(the queries read the book without mutating it). -/
theorem lastUpdateId_monotone_gated (b : OrderBook) (ms : List BinanceMessage) :
    b.last_update_id ≤ (ms.foldl processJson b).last_update_id := by
  induction ms generalizing b with
  | nil => exact le_refl _
  | cons m t ih =>
    rw [List.foldl_cons]
    exact le_trans (processJson_last_le b m) (ih (processJson b m))

/-! ### Wire-record conversion -/

/-- C8: `DepthUpdate::from_reader` is total (it cannot fail): every level
component is parsed independently, an unparsable component defaults to 0
rather than aborting the batch, a parsable one keeps its parsed value, and
the update id is carried over unchanged. -/
theorem depth_from_reader_spec (r : DepthUpdateReader) (s : String) :
    (DepthUpdate.from_reader r).last_update_id = r.last_update_id ∧
    (∀ i, (DepthUpdate.from_reader r).bids.get? i =
      (r.bids.get? i).map (fun e => ((parseDecimal e.1).getD 0, (parseDecimal e.2).getD 0))) ∧
    (∀ i, (DepthUpdate.from_reader r).asks.get? i =
      (r.asks.get? i).map (fun e => ((parseDecimal e.1).getD 0, (parseDecimal e.2).getD 0))) ∧
    (parseDecimal s = none → (parseDecimal s).getD 0 = 0) ∧
    (∀ w, parseDecimal s = some w → (parseDecimal s).getD 0 = w) := by
  refine ⟨rfl, fun i => ?_, fun i => ?_, fun h => by rw [h]; rfl, fun w h => by rw [h]; rfl⟩
  · simp [DepthUpdate.from_reader, List.get?_map]
  · simp [DepthUpdate.from_reader, List.get?_map]

/-- Witness for C8: the component strings of a concrete depth record are
parsed independently; the unparsable one defaults to 0, the parsable one
keeps its value, and the whole conversion still succeeds. -/
theorem depth_from_reader_spec_witness :
    parseDecimal "abc" = none ∧ (parseDecimal "abc").getD 0 = 0 ∧
    parseDecimal "1.5" = some (mkRat 3 2) ∧ (parseDecimal "1.5").getD 0 = mkRat 3 2 ∧
    (DepthUpdate.from_reader ⟨7, [("1.5", "abc")], []⟩).bids.get? 0 =
      some (mkRat 3 2, (0 : ℚ)) := by
  refine ⟨by decide,
    (depth_from_reader_spec ⟨7, [], []⟩ "abc").2.2.2.1 (by decide),
    by decide,
    (depth_from_reader_spec ⟨7, [], []⟩ "1.5").2.2.2.2 (mkRat 3 2) (by decide), ?_⟩
  rw [(depth_from_reader_spec ⟨7, [("1.5", "abc")], []⟩ "x").2.1 0]
  decide

/-- C9: `BookTickerUpdate::from_reader` fails exactly when at least one of
the four decimal strings does not parse, and then with a `ParseError` naming
the first offending field in parse order; when all four parse, it succeeds
with the parsed values and the reader's update id.  Either way it touches no
book state — the conversion never receives the book at all. -/
theorem ticker_from_reader_spec (r : BookTickerUpdateReader) :
    ((∃ msg, BookTickerUpdate.from_reader r =
        Except.error (OrderBookError.ParseError msg)) ↔
      (parseDecimal r.bid_price = none ∨ parseDecimal r.bid_qty = none ∨
       parseDecimal r.ask_price = none ∨ parseDecimal r.ask_qty = none)) ∧
    (parseDecimal r.bid_price = none →
      BookTickerUpdate.from_reader r =
        Except.error (OrderBookError.ParseError "Error parsing bid_price: invalid float literal")) ∧
    (∀ bp, parseDecimal r.bid_price = some bp → parseDecimal r.bid_qty = none →
      BookTickerUpdate.from_reader r =
        Except.error (OrderBookError.ParseError "Error parsing bid_qty: invalid float literal")) ∧
    (∀ bp bq, parseDecimal r.bid_price = some bp → parseDecimal r.bid_qty = some bq →
      parseDecimal r.ask_price = none →
      BookTickerUpdate.from_reader r =
        Except.error (OrderBookError.ParseError "Error parsing ask_price: invalid float literal")) ∧
    (∀ bp bq ap, parseDecimal r.bid_price = some bp → parseDecimal r.bid_qty = some bq →
      parseDecimal r.ask_price = some ap → parseDecimal r.ask_qty = none →
      BookTickerUpdate.from_reader r =
        Except.error (OrderBookError.ParseError "Error parsing ask_qty: invalid float literal")) ∧
    (∀ bp bq ap aq, parseDecimal r.bid_price = some bp → parseDecimal r.bid_qty = some bq →
      parseDecimal r.ask_price = some ap → parseDecimal r.ask_qty = some aq →
      BookTickerUpdate.from_reader r = Except.ok ⟨r.last_update_id, bp, bq, ap, aq⟩) := by
  rw [from_reader_cases]
  refine ⟨?_, ?_, ?_, ?_, ?_, ?_⟩
  · cases parseDecimal r.bid_price <;> cases parseDecimal r.bid_qty <;>
      cases parseDecimal r.ask_price <;> cases parseDecimal r.ask_qty <;> simp
  · intro h1
    rw [h1]
  · intro bp h1 h2
    rw [h1, h2]
  · intro bp bq h1 h2 h3
    rw [h1, h2, h3]
  · intro bp bq ap h1 h2 h3 h4
    rw [h1, h2, h3, h4]
  · intro bp bq ap aq h1 h2 h3 h4
    rw [h1, h2, h3, h4]

/-- Witness for C9: a concrete reader whose four fields all parse converts
successfully with the parsed values, and one with an unparsable bid quantity
fails with a `ParseError` naming `bid_qty`. -/
theorem ticker_from_reader_spec_witness :
    parseDecimal "2" = some 2 ∧
    BookTickerUpdate.from_reader ⟨1, "BNBUSDT", "2", "3", "4", "5"⟩ =
      Except.ok ⟨1, 2, 3, 4, 5⟩ ∧
    parseDecimal "x" = none ∧
    BookTickerUpdate.from_reader ⟨1, "BNBUSDT", "2", "x", "4", "5"⟩ =
      Except.error (OrderBookError.ParseError "Error parsing bid_qty: invalid float literal") :=
  ⟨by decide,
    (ticker_from_reader_spec ⟨1, "BNBUSDT", "2", "3", "4", "5"⟩).2.2.2.2.2 2 3 4 5
      (by decide) (by decide) (by decide) (by decide),
    by decide,
    (ticker_from_reader_spec ⟨1, "BNBUSDT", "2", "x", "4", "5"⟩).2.2.1 2
      (by decide) (by decide)⟩

end BinanceOrderbook
